import Mathlib

/-!
# gousdbrl: the USD to BRL rate checker (`main.go`)

A shallow embedding of `main.go` and the properties of its specification.

* `float64` values are their 64-bit IEEE-754 patterns (`F64`); the program only
  compares them (`<`, `>`), which on bit patterns is integer comparison of the
  sign-magnitude key, with NaN unordered.
* Go results `(value, error)` are pairs whose second component is an
  `Option Error`; `nil` is `none`.
* What the program takes from the runtime and the network (`strconv.ParseFloat`,
  `http.Get`, the HTML parser, the colour switch and reset sequence of
  `fatih/color`) is a parameter, `Platform`: the theorems hold for every one.
* The state file is the JSON document tree it denotes; `gjson.Get` and
  `sjson.Set` are lookup and update of a path of keys in the tree.
* A page is its HTML tree; `Find` and `Text` of goquery are the matches of
  the selector in document order and their combined text.
* The file system is the state `World`: per path, no file or a file with its
  content and whether it can be read; `saveConfig` is a state transformer.
* The goroutine and the two channels of `main` are the value `FetchOutcome`:
  `fetchExchangeRate` sends exactly one value on exactly one channel, and the
  `select` of `main` receives it.  The spinner is not modelled.
-/

namespace Gousdbrl

/-! ## float64 -/

/-- A `float64`, as its IEEE-754 bit pattern (taken modulo `2^64`). -/
structure F64 where
  bits : Nat
  deriving DecidableEq, Repr

namespace F64

/-- The biased exponent field (11 bits). -/
def exponent (x : F64) : Nat := (x.bits % 2 ^ 64 / 2 ^ 52) % 2 ^ 11

/-- The fraction field (52 bits). -/
def mantissa (x : F64) : Nat := x.bits % 2 ^ 52

/-- The sign bit. -/
def sign (x : F64) : Bool := decide (x.bits % 2 ^ 64 / 2 ^ 63 = 1)

/-- Not-a-number: exponent all ones and a non-zero fraction. -/
def isNaN (x : F64) : Bool := decide (x.exponent = 2047) && decide (x.mantissa ≠ 0)

/-- Sign-magnitude key: for values that are not NaN the IEEE order is the
order of the keys, and the two zeros share the key `0`. -/
def key (x : F64) : Int :=
  if x.sign then - ((x.bits % 2 ^ 63 : Nat) : Int) else ((x.bits % 2 ^ 63 : Nat) : Int)

/-- Go `x < y` on `float64`. -/
def lt (x y : F64) : Bool := !x.isNaN && !y.isNaN && decide (x.key < y.key)

/-- Go `x > y` on `float64`. -/
def gt (x y : F64) : Bool := !x.isNaN && !y.isNaN && decide (y.key < x.key)

/-- Go `x == y` on `float64`. -/
def eq (x y : F64) : Bool := !x.isNaN && !y.isNaN && decide (x.key = y.key)

/-- The constant `0.0`. -/
def zero : F64 := ⟨0⟩

/-- The constant `1.0`. -/
def one : F64 := ⟨0x3FF0000000000000⟩

end F64

/-! ## Errors and the platform -/

/-- A Go `error`, as its message. -/
abbrev Error := String

/-- Attributes of `fatih/color` used by the program, with their SGR codes. -/
inductive Attribute where
  | Bold | FgRed | FgGreen | FgYellow | FgHiRed | FgHiGreen | FgHiBlue | FgHiWhite
  deriving DecidableEq, Repr

/-- SGR parameter of an attribute, as `color` prints it. -/
def Attribute.code : Attribute → String
  | .Bold => "1"
  | .FgRed => "31"
  | .FgGreen => "32"
  | .FgYellow => "33"
  | .FgHiRed => "91"
  | .FgHiGreen => "92"
  | .FgHiBlue => "94"
  | .FgHiWhite => "97"

/-- A node of a parsed HTML document (`golang.org/x/net/html`): a text node or
an element with its attributes and children.  Other node kinds carry no text
and match no selector. -/
inductive Node where
  | text (data : String)
  | element (tag : String) (attr : List (String × String)) (children : List Node)

/-- A parsed HTML document: the children of its document node. -/
structure Document where
  nodes : List Node

/-- An HTTP response: status code and body. -/
structure Response where
  StatusCode : Nat
  Body : String

/-- What the program takes from the runtime and from third-party packages. -/
structure Platform where
  /-- Model of `strconv.ParseFloat(s, 64)`: the value and the error. -/
  parseFloat : String → F64 × Option Error
  /-- The switch `color.NoColor` (set when the output is not a terminal). -/
  noColor : Bool
  /-- The reset sequence `color` appends after a styled text. -/
  unformat : List Attribute → String
  /-- Model of `http.Get`. -/
  httpGet : String → Except Error Response
  /-- Model of `goquery.NewDocumentFromReader` on a response body. -/
  newDocumentFromReader : String → Except Error Document

/-- The escape sequence `color` puts before a styled text. -/
def format (attrs : List Attribute) : String :=
  "\x1b[" ++ ";".intercalate (attrs.map Attribute.code) ++ "m"

/-- Model of `color.New(attrs...).Sprint(s)`: the text itself when colours are
off, else the text between the start and reset sequences. -/
def Sprint (p : Platform) (attrs : List Attribute) (s : String) : String :=
  if p.noColor then s else format attrs ++ s ++ p.unformat attrs

/-! ## Comparator: `handleRateComparison` -/

/-- Embedding of `handleRateComparison` (main.go 118-136). -/
def handleRateComparison (p : Platform) (rateStr : String) (configValue : F64) :
    String × Option Error :=
  match p.parseFloat rateStr with
  | (_, some err) => ("", some ("error parsing rate: " ++ err))
  | (rateFloat, none) =>
    let arrowIcon :=
      if rateFloat.lt configValue then Sprint p [.Bold, .FgHiRed] "▼ "
      else if rateFloat.gt configValue then Sprint p [.Bold, .FgHiGreen] "▲ "
      else Sprint p [.Bold, .FgHiWhite] "▶ "
    (arrowIcon ++ Sprint p [.Bold, .FgYellow] rateStr, none)

/-! ## The state document: JSON tree, `gjson.Get`, `sjson.Set` -/

/-- A JSON document tree.  An object keeps its fields in order, duplicates
included. -/
inductive JSON where
  | null
  | bool (b : Bool)
  | number (v : F64)
  | string (s : String)
  | array (items : List JSON)
  | object (fields : List (String × JSON))

/-- The text of the state file, by the document it denotes; `empty` is the
empty text (also what `string(fileData)` is when the read failed). -/
inductive FileData where
  | empty
  | json (doc : JSON)

/-- The field of an object with the given key (the first one), if any. -/
def JSON.field (k : String) : JSON → Option JSON
  | .object fields => fields.lookup k
  | _ => none

/-- The value at a path of object keys. -/
def JSON.get : JSON → List String → Option JSON
  | j, [] => some j
  | j, k :: ks =>
    match j.field k with
    | some c => c.get ks
    | none => none

/-- Replace the value of the first field with key `k`, or append the field. -/
def setField (k : String) (v : JSON) : List (String × JSON) → List (String × JSON)
  | [] => [(k, v)]
  | (k', v') :: rest =>
    if k' = k then (k, v) :: rest else (k', v') :: setField k v rest

/-- Set the value at a path of object keys, creating missing objects. -/
def JSON.set : JSON → List String → JSON → Except Error JSON
  | _, [], v => .ok v
  | .array _, k :: _, _ =>
    .error ("cannot set array element for non-numeric key '" ++ k ++ "'")
  | .object fields, k :: ks, v =>
    match JSON.set ((fields.lookup k).getD (.object [])) ks v with
    | .ok c => .ok (.object (setField k c fields))
    | .error e => .error e
  | _, k :: ks, v =>
    match JSON.set (.object []) ks v with
    | .ok c => .ok (.object [(k, c)])
    | .error e => .error e

/-- The result of `gjson.Get`: the value found, if any. -/
abbrev Result := Option JSON

/-- Modelled from the spec: `gjson.Get(data, path)` of the third-party package
`tidwall/gjson`, whose source is not part of the repository.  The spec has the state file as a
structured document with a field path; the path `config.value` is given by
its keys. -/
def gjsonGet (data : FileData) (path : List String) : Result :=
  match data with
  | .empty => none
  | .json doc => doc.get path

/-- Model of `Result.Exists`. -/
def Result.Exists (r : Result) : Bool := r.isSome

/-- Model of `Result.Float`: a number is itself, a string is what
`strconv.ParseFloat` makes of it (error dropped), `true` is 1, all else 0. -/
def Result.Float (p : Platform) (r : Result) : F64 :=
  match r with
  | some (.number v) => v
  | some (.string s) => (p.parseFloat s).1
  | some (.bool true) => F64.one
  | _ => F64.zero

/-- Modelled from the spec: `sjson.Set(data, path, value)` of the third-party
package `tidwall/sjson`, whose source is not part of the repository: parse into a generic
document tree, set one path, serialize, preserving the fields already present;
empty content is an empty object.  Where the spec is silent the model follows
the package: a scalar on the path is replaced by a fresh object, and an array
refuses a key that is not an index. -/
def sjsonSet (data : FileData) (path : List String) (value : F64) : Except Error FileData :=
  match data with
  | .empty => (JSON.set (.object []) path (.number value)).map FileData.json
  | .json doc => (doc.set path (.number value)).map FileData.json

/-! ## The file system -/

/-- What is at a path: nothing, or a file with its content and whether this
process may read it. -/
inductive FileState where
  | absent
  | file (data : FileData) (readable : Bool)

/-- An error of package `os`, with what `os.IsNotExist` says of it. -/
structure OsError where
  msg : String
  notExist : Bool

/-- How `os.WriteFile` fails: at the open, with nothing changed; or after the
open, which has truncated the file, with what the failed write left in it. -/
inductive WriteFault where
  | atOpen (err : Error)
  | afterOpen (err : Error) (left : FileData)

/-- The part of the machine the program reads and writes. -/
structure World where
  /-- Result of `os.UserConfigDir()`. -/
  userConfigDir : Except Error String
  /-- Error of `os.MkdirAll(dir, 0755)`, if any. -/
  mkdirAll : String → Option Error
  /-- The files, by path. -/
  files : String → FileState
  /-- The failure `os.WriteFile` meets at a path, if any. -/
  writeFault : String → Option WriteFault

/-- Model of `filepath.Join` on two clean elements. -/
def filepathJoin (dir name : String) : String := dir ++ "/" ++ name

/-- Model of `os.ReadFile`. -/
def readFile (w : World) (path : String) : FileData × Option OsError :=
  match w.files path with
  | .absent => (.empty, some ⟨"open " ++ path ++ ": no such file or directory", true⟩)
  | .file _ false => (.empty, some ⟨"open " ++ path ++ ": permission denied", false⟩)
  | .file data true => (data, none)

/-- Model of `os.Stat`: the error, if any. -/
def stat (w : World) (path : String) : Option OsError :=
  match w.files path with
  | .absent => some ⟨"stat " ++ path ++ ": no such file or directory", true⟩
  | .file _ _ => none

/-- Model of `os.WriteFile(path, data, 0644)`: the file is opened with
create and truncate, written and closed.  A failure of the open changes
nothing; a failure after it leaves the file with what the write left; else the
content is replaced.  An existing file keeps its permissions, a new one is
readable. -/
def writeFile (w : World) (path : String) (data : FileData) : World × Option Error :=
  let readable := match w.files path with
    | .absent => true
    | .file _ r => r
  match w.writeFault path with
  | some (.atOpen err) => (w, some err)
  | some (.afterOpen err left) =>
    ({ w with files := fun q => if q = path then .file left readable else w.files q }, some err)
  | none =>
    ({ w with files := fun q => if q = path then .file data readable else w.files q }, none)

/-! ## PersistedState store -/

/-- The constant `appName` (main.go 19). -/
def appName : String := "gousdbrl"

/-- The constant `wiseCurrencyPage` (main.go 20). -/
def wiseCurrencyPage : String :=
  "https://wise.com/gb/currency-converter/usd-to-brl-rate?amount=1"

/-- The type `Config` (main.go 22-24). -/
structure Config where
  Value : F64
  deriving DecidableEq, Repr

/-- The path `config.value`, by its keys. -/
def configValuePath : List String := ["config", "value"]

/-- Embedding of `getConfigFilePath` (main.go 26-38). -/
def getConfigFilePath (w : World) : String × Option Error :=
  match w.userConfigDir with
  | .error err => ("", some ("failed to get user config directory: " ++ err))
  | .ok configDir =>
    let appDir := filepathJoin configDir "gousdbrl"
    match w.mkdirAll appDir with
    | some err => ("", some ("failed to create app config directory: " ++ err))
    | none => (filepathJoin appDir "data.json", none)

/-- Embedding of `loadConfig` (main.go 40-62). -/
def loadConfig (p : Platform) (w : World) : Option Config × Option Error :=
  match getConfigFilePath w with
  | (_, some err) => (none, some err)
  | (filePath, none) =>
    match readFile w filePath with
    | (_, some err) =>
      if err.notExist then (some ⟨F64.zero⟩, none) else (none, some err.msg)
    | (data, none) =>
      let value := gjsonGet data configValuePath
      if !value.Exists then
        (none, some "key 'config.value' not found in config file")
      else
        (some ⟨value.Float p⟩, none)

/-- Embedding of `saveConfig` (main.go 64-82). -/
def saveConfig (w : World) (config : Config) : World × Option Error :=
  match getConfigFilePath w with
  | (_, some err) => (w, some err)
  | (filePath, none) =>
    let data :=
      match stat w filePath with
      | none => (readFile w filePath).1
      | some _ => FileData.json (.object [])
    match sjsonSet data configValuePath config.Value with
    | .error err => (w, some err)
    | .ok newData => writeFile w filePath newData

/-! ## RateSource: `fetchExchangeRate` -/

/-- A compound selector: a tag name with an optional attribute test and an
optional class. -/
structure Compound where
  tag : String
  attr : Option (String × String)
  cls : Option String

/-- A selector `A B`: elements matching `B` below an element matching `A`. -/
structure Selector where
  ancestor : Compound
  target : Compound

/-- The selector `span[dir='ltr'] span.text-success` of main.go 109. -/
def rateSelector : Selector :=
  { ancestor := { tag := "span", attr := some ("dir", "ltr"), cls := none }
    target := { tag := "span", attr := none, cls := some "text-success" } }

/-- The characters that separate class names: blank, tab, line feed, form
feed, carriage return. -/
def classSeparator (c : Char) : Bool := [32, 9, 10, 12, 13].contains c.toNat

/-- The words of a text between separators; `cur` is the word being read,
reversed. -/
def wordsAux : List Char → List Char → List String
  | [], cur => if cur.isEmpty then [] else [String.mk cur.reverse]
  | c :: cs, cur =>
    if classSeparator c then
      (if cur.isEmpty then wordsAux cs [] else String.mk cur.reverse :: wordsAux cs [])
    else wordsAux cs (c :: cur)

/-- The class names in a `class` attribute. -/
def classNames (v : String) : List String := wordsAux v.data []

/-- Whether an element with this tag and these attributes matches: the tag
is the one named, some attribute has the key and value asked for, and some
`class` attribute lists the class. -/
def Compound.matchesElement (c : Compound) (tag : String) (attr : List (String × String)) : Bool :=
  decide (tag = c.tag)
    && (match c.attr with
        | none => true
        | some (k, v) => attr.any (fun a => decide (a.1 = k) && decide (a.2 = v)))
    && (match c.cls with
        | none => true
        | some cl => attr.any (fun a => decide (a.1 = "class") && decide (cl ∈ classNames a.2)))

mutual
/-- The matches of a selector in a node and below it, in document order;
`inside` says whether an ancestor matched the first compound. -/
def findNode (s : Selector) (inside : Bool) : Node → List Node
  | .text _ => []
  | .element tag attr children =>
    (if inside && s.target.matchesElement tag attr then [Node.element tag attr children] else [])
      ++ findNodes s (inside || s.ancestor.matchesElement tag attr) children
/-- The matches of a selector in a list of sibling nodes. -/
def findNodes (s : Selector) (inside : Bool) : List Node → List Node
  | [] => []
  | n :: ns => findNode s inside n ++ findNodes s inside ns
end

/-- Model of `doc.Find(selector)`: the matching nodes. -/
def Document.Find (doc : Document) (s : Selector) : List Node :=
  findNodes s false doc.nodes

mutual
/-- Model of goquery's node text: the data of a text node, the texts of the
children of an element, one after another. -/
def getNodeText : Node → String
  | .text data => data
  | .element _ _ children => getNodesText children
/-- The texts of a list of nodes, one after another. -/
def getNodesText : List Node → String
  | [] => ""
  | n :: ns => getNodeText n ++ getNodesText ns
end

/-- Model of `Selection.Text()`: the combined text of the selected nodes. -/
def Text (selection : List Node) : String := getNodesText selection

/-- What `fetchExchangeRate` sends: a rate on `resultChan` or an error on
`errChan`. -/
inductive FetchOutcome where
  | result (rate : String)
  | err (e : Error)

/-- Embedding of `fetchExchangeRate` (main.go 84-116). -/
def fetchExchangeRate (p : Platform) (url : String) : FetchOutcome :=
  match p.httpGet url with
  | .error err => .err ("failed to fetch the page: " ++ err)
  | .ok resp =>
    if resp.StatusCode ≠ 200 then
      .err ("unexpected status code: " ++ toString resp.StatusCode)
    else
      match p.newDocumentFromReader resp.Body with
      | .error err => .err ("failed to parse HTML: " ++ err)
      | .ok doc =>
        let rate := Text (doc.Find rateSelector)
        if rate = "" then .err "exchange rate not found in HTML"
        else .result rate

/-! ## Orchestrator: `main` -/

/-- A line on standard output: printed by `fmt.Println`, or in red by
`color.Red`. -/
inductive Out where
  | line (s : String)
  | red (s : String)

/-- How the process ends: normally, or by `log.Fatalf` with a message and a
non-zero exit code. -/
inductive Exit where
  | success
  | fatal (msg : String)

/-- The outcome of one run. -/
structure Run where
  world : World
  stdout : List Out
  status : Exit

/-- Embedding of `main` (main.go 138-183). -/
def main (p : Platform) (w : World) : Run :=
  let loading := Sprint p [.Bold, .FgHiBlue] "Fetching USD to BRL exchange rate from "
  let highlight := Sprint p [.Bold, .FgGreen] "Wise"
  let out := [Out.line (loading ++ highlight)]
  let outcome := fetchExchangeRate p wiseCurrencyPage
  match loadConfig p w with
  | (_, some err) =>
    ⟨w, out ++ [.red ("Error loading config: " ++ err ++ "\n")],
      .fatal ("Error loading config: " ++ err ++ "\n")⟩
  | (none, none) => ⟨w, out, .fatal "invalid memory address or nil pointer dereference"⟩
  | (some config, none) =>
    match outcome with
    | .result rate =>
      match handleRateComparison p rate config.Value with
      | (_, some err) =>
        ⟨w, out ++ [.red ("Error handling rate comparison: " ++ err ++ "\n")],
          .fatal ("Error handling rate comparison: " ++ err ++ "\n")⟩
      | (arrowMessage, none) =>
        match p.parseFloat rate with
        | (_, some err) =>
          ⟨w, out ++ [.red ("Error updating config value: " ++ err ++ "\n")],
            .fatal ("Error updating config value: " ++ err ++ "\n")⟩
        | (value, none) =>
          match saveConfig w { config with Value := value } with
          | (w', some err) =>
            ⟨w', out ++ [.red ("Error saving config: " ++ err ++ "\n")],
              .fatal ("Error saving config: " ++ err ++ "\n")⟩
          | (w', none) => ⟨w', out ++ [.line arrowMessage], .success⟩
    | .err err =>
      ⟨w, out ++ [.red ("Error: " ++ err ++ "\n")], .fatal ("Error: " ++ err ++ "\n")⟩


/-! ## Specification vocabulary -/

/-- The direction of a ComparisonResult (spec, data model). -/
inductive Direction where
  | Down | Up | Unchanged
  deriving DecidableEq, Repr

/-- The glyph of a direction. -/
def Direction.glyph : Direction → String
  | .Down => "▼"
  | .Up => "▲"
  | .Unchanged => "▶"

/-- The colour the program gives the glyph of a direction. -/
def Direction.colour : Direction → Attribute
  | .Down => .FgHiRed
  | .Up => .FgHiGreen
  | .Unchanged => .FgHiWhite

/-- The branch the switch of `handleRateComparison` (main.go 126-133) takes
for the parsed rate `v` and the old value `o`. -/
def switchDirection (v o : F64) : Direction :=
  if v.lt o then .Down else if v.gt o then .Up else .Unchanged

/-- The display string that reports direction `d` for the rate text `r`: the
styled glyph with a blank, then the styled rate text. -/
def display (p : Platform) (d : Direction) (r : String) : String :=
  Sprint p [.Bold, d.colour] (d.glyph ++ " ") ++ Sprint p [.Bold, .FgYellow] r

/-! ## Sample inputs -/

/-- The float64 5.0. -/
def f500 : F64 := ⟨0x4014000000000000⟩

/-- The float64 nearest to 5.2. -/
def f520 : F64 := ⟨0x4014CCCCCCCCCCCD⟩

/-- The float64 5.5. -/
def f550 : F64 := ⟨0x4016000000000000⟩

/-- The NaN that `strconv.ParseFloat` and `math.NaN` return. -/
def quietNaN : F64 := ⟨0x7FF8000000000001⟩

/-- What `strconv.ParseFloat(s, 64)` returns on the texts used below. -/
def sampleParseFloat (s : String) : F64 × Option Error :=
  if s = "5.00" then (f500, none)
  else if s = "5.20" then (f520, none)
  else if s = "5.50" then (f550, none)
  else if s = "NaN" then (quietNaN, none)
  else (F64.zero, some ("strconv.ParseFloat: parsing \"" ++ s ++ "\": invalid syntax"))

/-- A page that carries the text `rate` in the element the selector finds. -/
def pageWith (rate : String) : String :=
  "<span dir=ltr><span class=text-success>" ++ rate ++ "</span></span>"

/-- The parsed form of `pageWith rate`. -/
def documentWith (rate : String) : Document :=
  ⟨[.element "html" [] [.element "head" [] [],
      .element "body" [] [.element "span" [("dir", "ltr")]
        [.element "span" [("class", "text-success")] [.text rate]]]]]⟩

/-- A platform whose server answers with the given status and body, the body
parsing to `doc`, with colours off. -/
def platformWith (status : Nat) (body : String) (doc : Document) : Platform :=
  { parseFloat := sampleParseFloat
    noColor := true
    unformat := fun _ => "\x1b[0m"
    httpGet := fun _ => .ok ⟨status, body⟩
    newDocumentFromReader := fun _ => .ok doc }

/-- A platform whose server answers with the given status and `pageWith rate`. -/
def platformServing (status : Nat) (rate : String) : Platform :=
  platformWith status (pageWith rate) (documentWith rate)

/-- The element the selector finds in `emptyRateDocument`: it has no text. -/
def emptyRateNode : Node := .element "span" [("class", "text-success")] []

/-- The parsed form of `pageWith ""`: the matching element is there, empty. -/
def emptyRateDocument : Document :=
  ⟨[.element "html" [] [.element "head" [] [],
      .element "body" [] [.element "span" [("dir", "ltr")] [emptyRateNode]]]]⟩

/-- The first line the program prints. -/
def banner (p : Platform) : Out :=
  .line (Sprint p [.Bold, .FgHiBlue] "Fetching USD to BRL exchange rate from "
    ++ Sprint p [.Bold, .FgGreen] "Wise")

/-- The path of the state file in the sample worlds. -/
def statePath : String := "/home/user/.config/gousdbrl/data.json"

/-- A world whose state file is in the given state; every write succeeds. -/
def worldWith (state : FileState) : World :=
  { userConfigDir := .ok "/home/user/.config"
    mkdirAll := fun _ => none
    files := fun q => if q = statePath then state else .absent
    writeFault := fun _ => none }

/-- A world whose state file is in the given state and where every write
fails after the open, leaving the file empty (a full disk). -/
def worldFullDisk (state : FileState) : World :=
  { userConfigDir := .ok "/home/user/.config"
    mkdirAll := fun _ => none
    files := fun q => if q = statePath then state else .absent
    writeFault := fun _ => some (.afterOpen "write: no space left on device" .empty) }

/-- The state document with just the value `v` at `config.value`. -/
def stateWith (v : F64) : JSON :=
  .object [("config", .object [("value", .number v)])]

/-- A state document with 5.5 at `config.value` and two unrelated fields. -/
def richState : JSON :=
  .object [("note", .string "kept"),
    ("config", .object [("unit", .string "BRL"), ("value", .number f550)])]

/-- The state file exists but this process may not read it. -/
def World.stateUnreadable (w : World) : Prop :=
  ∃ path data, getConfigFilePath w = (path, none) ∧ w.files path = .file data false

end Gousdbrl

namespace Gousdbrl

/-! ## float64 comparison -/

theorem F64.lt_gt_exclusive (x y : F64) : x.lt y = true → x.gt y = false := by
  unfold F64.lt F64.gt
  cases x.isNaN <;> cases y.isNaN <;> simp
  omega

theorem F64.neither_iff (x y : F64) :
    (x.lt y = false ∧ x.gt y = false) ↔
      (x.eq y = true ∨ x.isNaN = true ∨ y.isNaN = true) := by
  unfold F64.lt F64.gt F64.eq
  cases x.isNaN <;> cases y.isNaN <;> simp
  omega

/-! ## Strings -/

theorem append_left_eq_of_length (a b x y : String) (hl : a.length = b.length)
    (h : a ++ x = b ++ y) : a = b := by
  have h1 : a.data ++ x.data = b.data ++ y.data := by
    have h0 := congrArg String.data h
    rwa [String.data_append, String.data_append] at h0
  have h2 : a.data = b.data := List.append_inj_left h1 hl
  exact String.ext h2

theorem display_injective (p : Platform) (d d' : Direction) (r r' : String)
    (h : display p d r = display p d' r') : d = d' := by
  unfold display Sprint at h
  cases hc : p.noColor
  · simp only [hc, Bool.false_eq_true, if_false] at h
    have h' : (format [.Bold, d.colour] ++ (d.glyph ++ " ")) ++
          (p.unformat [.Bold, d.colour] ++ (format [.Bold, .FgYellow] ++ r ++ p.unformat [.Bold, .FgYellow]))
        = (format [.Bold, d'.colour] ++ (d'.glyph ++ " ")) ++
          (p.unformat [.Bold, d'.colour] ++ (format [.Bold, .FgYellow] ++ r' ++ p.unformat [.Bold, .FgYellow])) := by
      simpa [String.append_assoc] using h
    have hp := append_left_eq_of_length _ _ _ _ (by cases d <;> cases d' <;> decide) h'
    revert hp
    cases d <;> cases d' <;> decide
  · simp only [hc, if_true] at h
    have hp := append_left_eq_of_length _ _ _ _ (by cases d <;> cases d' <;> decide) h
    revert hp
    cases d <;> cases d' <;> decide

/-! ## Comparator -/

theorem handleRateComparison_ok (p : Platform) (r : String) (o v : F64)
    (h : p.parseFloat r = (v, none)) :
    handleRateComparison p r o =
      (display p (if v.lt o then .Down else if v.gt o then .Up else .Unchanged) r, none) := by
  unfold handleRateComparison display
  rw [h]
  by_cases h1 : v.lt o = true
  · simp [h1, Direction.glyph, Direction.colour]
  · by_cases h2 : v.gt o = true
    · simp [h1, h2, Direction.glyph, Direction.colour]
    · simp [h1, h2, Direction.glyph, Direction.colour]

/-- C1, as amended: when the rate text parses to `v`, `handleRateComparison`
succeeds and reports Down exactly when `v < o`, Up exactly when `v > o`, and
Unchanged exactly when neither holds, which is when `v == o` or one of the two
is NaN; on a first run (`o = 0.0`) every positive rate reports Up. -/
theorem handleRateComparison_direction (p : Platform) (r : String) (o v : F64)
    (h : p.parseFloat r = (v, none)) :
    (handleRateComparison p r o).2 = none
      ∧ ((handleRateComparison p r o).1 = display p .Down r ↔ v.lt o = true)
      ∧ ((handleRateComparison p r o).1 = display p .Up r ↔ v.gt o = true)
      ∧ ((handleRateComparison p r o).1 = display p .Unchanged r ↔
          (v.eq o = true ∨ v.isNaN = true ∨ o.isNaN = true))
      ∧ (v.gt F64.zero = true → (handleRateComparison p r F64.zero).1 = display p .Up r) := by
  have hne := F64.neither_iff v o
  have hex := F64.lt_gt_exclusive v o
  have hex0 := F64.lt_gt_exclusive v F64.zero
  refine ⟨by rw [handleRateComparison_ok p r o v h], ?_, ?_, ?_, ?_⟩
  · rw [handleRateComparison_ok p r o v h]
    constructor
    · intro hd
      have := display_injective _ _ _ _ _ hd
      by_cases h1 : v.lt o = true
      · exact h1
      · by_cases h2 : v.gt o = true <;> simp [h1, h2] at this
    · intro h1
      simp [h1]
  · rw [handleRateComparison_ok p r o v h]
    constructor
    · intro hd
      have := display_injective _ _ _ _ _ hd
      by_cases h1 : v.lt o = true
      · simp [h1] at this
      · by_cases h2 : v.gt o = true
        · exact h2
        · simp [h1, h2] at this
    · intro h2
      have h1 : v.lt o = false := by
        cases hl : v.lt o
        · rfl
        · rw [hex hl] at h2
          exact absurd h2 (by decide)
      simp [h1, h2]
  · rw [handleRateComparison_ok p r o v h]
    constructor
    · intro hd
      have := display_injective _ _ _ _ _ hd
      by_cases h1 : v.lt o = true
      · simp [h1] at this
      · by_cases h2 : v.gt o = true
        · simp [h1, h2] at this
        · exact hne.mp ⟨by simpa using h1, by simpa using h2⟩
    · intro he
      obtain ⟨h1, h2⟩ := hne.mpr he
      simp [h1, h2]
  · intro h2
    rw [handleRateComparison_ok p r F64.zero v h]
    have h1 : v.lt F64.zero = false := by
      cases hl : v.lt F64.zero
      · rfl
      · rw [hex0 hl] at h2
        exact absurd h2 (by decide)
    simp [h1, h2]

/-- Witness of C1: the rate text 5.00 against the stored 5.5 reports Down. -/
theorem handleRateComparison_direction_witness :
    (handleRateComparison (platformServing 200 "5.00") "5.00" f550).1
      = display (platformServing 200 "5.00") .Down "5.00" :=
  (handleRateComparison_direction (platformServing 200 "5.00") "5.00" f550 f500
    (by decide)).2.1.mpr (by decide)

/-- C1, counterexample: against a stored NaN the rate text 5.00, which parses
to 5.0, reports Unchanged although 5.0 is not equal to NaN. -/
theorem handleRateComparison_unchanged_not_equal :
    (platformServing 200 "5.00").parseFloat "5.00" = (f500, none)
      ∧ handleRateComparison (platformServing 200 "5.00") "5.00" quietNaN
          = (display (platformServing 200 "5.00") .Unchanged "5.00", none)
      ∧ handleRateComparison (platformServing 200 "5.00") "5.00" quietNaN = ("▶ 5.00", none)
      ∧ f500.eq quietNaN = false
      ∧ f500 ≠ quietNaN := by
  refine ⟨by decide, by decide, by decide, by decide, by decide⟩

/-- C8: when the rate text parses to `v`, the display string is the styled
glyph of the direction the comparison of `v` with the old value gives (Down
for less, Up for greater, Unchanged otherwise), followed by the styled rate
text, where the rate text is the fetched text itself; with colours off it is
that glyph, a blank and the rate text, character for character. -/
theorem handleRateComparison_verbatim (p : Platform) (r : String) (o v : F64)
    (h : p.parseFloat r = (v, none)) :
    (handleRateComparison p r o).1
        = Sprint p [.Bold, (switchDirection v o).colour] ((switchDirection v o).glyph ++ " ")
          ++ Sprint p [.Bold, .FgYellow] r
      ∧ (p.noColor = true →
          (handleRateComparison p r o).1 = (switchDirection v o).glyph ++ " " ++ r)
      ∧ (p.noColor = false → (handleRateComparison p r o).1 =
          format [.Bold, (switchDirection v o).colour] ++ ((switchDirection v o).glyph ++ " ")
            ++ p.unformat [.Bold, (switchDirection v o).colour]
            ++ (format [.Bold, .FgYellow] ++ r ++ p.unformat [.Bold, .FgYellow]))
      ∧ (p.noColor = true → v.lt o = true → (handleRateComparison p r o).1 = "▼ " ++ r)
      ∧ (p.noColor = true → v.lt o = false → v.gt o = true →
          (handleRateComparison p r o).1 = "▲ " ++ r)
      ∧ (p.noColor = true → v.lt o = false → v.gt o = false →
          (handleRateComparison p r o).1 = "▶ " ++ r) := by
  rw [handleRateComparison_ok p r o v h]
  refine ⟨rfl, ?_, ?_, ?_, ?_, ?_⟩
  · intro hc
    simp [display, switchDirection, Sprint, hc, String.append_assoc]
  · intro hc
    simp [display, switchDirection, Sprint, hc]
  · intro hc h1
    simp [display, Sprint, hc, h1, Direction.glyph]
  · intro hc h1 h2
    simp [display, Sprint, hc, h1, h2, Direction.glyph]
  · intro hc h1 h2
    simp [display, Sprint, hc, h1, h2, Direction.glyph]

/-- Witness of C8: with colours off, the text 5.00 is shown as fetched, after
the Up glyph on a first run and after the Down glyph against a stored 5.5. -/
theorem handleRateComparison_verbatim_witness :
    (handleRateComparison (platformServing 200 "5.00") "5.00" F64.zero).1 = "▲ " ++ "5.00"
      ∧ (handleRateComparison (platformServing 200 "5.00") "5.00" f550).1 = "▼ " ++ "5.00" :=
  ⟨(handleRateComparison_verbatim (platformServing 200 "5.00") "5.00" F64.zero f500
      (by decide)).2.2.2.2.1 (by rfl) (by decide) (by decide),
    (handleRateComparison_verbatim (platformServing 200 "5.00") "5.00" f550 f500
      (by decide)).2.2.2.1 (by rfl) (by decide)⟩

/-- C9: `handleRateComparison` returns an error exactly when the rate text
does not parse; the error wraps the parse failure, the display string is then
empty, and the result is the same for every old value. -/
theorem handleRateComparison_error_iff (p : Platform) (r : String) (o : F64) :
    ((handleRateComparison p r o).2 ≠ none ↔ (p.parseFloat r).2 ≠ none)
      ∧ (∀ err, (p.parseFloat r).2 = some err →
          handleRateComparison p r o = ("", some ("error parsing rate: " ++ err)))
      ∧ ((handleRateComparison p r o).2 ≠ none →
          (handleRateComparison p r o).1 = ""
            ∧ ∀ o', handleRateComparison p r o' = handleRateComparison p r o) := by
  unfold handleRateComparison
  rcases hp : p.parseFloat r with ⟨v, _ | e⟩
  · simp
  · simp

/-! ## The document tree -/

theorem lookup_setField_self (k : String) (v : JSON) (fs : List (String × JSON)) :
    (setField k v fs).lookup k = some v := by
  induction fs with
  | nil => simp [setField, List.lookup]
  | cons kv rest ih =>
    obtain ⟨k', v'⟩ := kv
    by_cases hk : k' = k
    · simp [setField, hk, List.lookup]
    · have hk' : (k == k') = false := by simpa using fun h => hk h.symm
      simp [setField, hk, List.lookup, hk', ih]

theorem lookup_setField_ne (k k' : String) (v : JSON) (fs : List (String × JSON))
    (hne : k' ≠ k) : (setField k v fs).lookup k' = fs.lookup k' := by
  induction fs with
  | nil =>
    have : (k' == k) = false := by simpa using hne
    simp [setField, List.lookup, this]
  | cons kv rest ih =>
    obtain ⟨k0, v0⟩ := kv
    by_cases hk : k0 = k
    · subst hk
      have : (k' == k0) = false := by simpa using hne
      simp [setField, List.lookup, this]
    · by_cases hk0 : k' = k0
      · simp [setField, hk, List.lookup, hk0]
      · have : (k' == k0) = false := by simpa using hk0
        simp [setField, hk, List.lookup, this, ih]

/-- After a successful set, the path holds the value set. -/
theorem JSON.get_set (path : List String) (x : JSON) :
    ∀ d d' : JSON, d.set path x = .ok d' → d'.get path = some x := by
  induction path with
  | nil =>
    intro d d' h
    cases d <;> simp [JSON.set] at h <;> simp [JSON.get, h]
  | cons k ks ih =>
    intro d d' h
    cases d with
    | array items => simp [JSON.set] at h
    | object fields =>
      simp only [JSON.set] at h
      cases hc : JSON.set ((fields.lookup k).getD (.object [])) ks x with
      | error e => simp [hc] at h
      | ok c =>
        simp [hc] at h
        subst h
        simp [JSON.get, JSON.field, lookup_setField_self, ih _ _ hc]
    | null | bool _ | number _ | string _ =>
      simp only [JSON.set] at h
      cases hc : JSON.set (.object []) ks x with
      | error e => simp [hc] at h
      | ok c =>
        simp [hc] at h
        subst h
        simp [JSON.get, JSON.field, List.lookup, ih _ _ hc]

/-- A successful set leaves every field with another key as it was. -/
theorem JSON.field_set_ne (k : String) (ks : List String) (x : JSON) (k' : String)
    (hne : k' ≠ k) (d d' : JSON) (h : d.set (k :: ks) x = .ok d') :
    d'.field k' = d.field k' := by
  have hb : (k' == k) = false := by simpa using hne
  cases d with
  | array items => simp [JSON.set] at h
  | object fields =>
    simp only [JSON.set] at h
    cases hc : JSON.set ((fields.lookup k).getD (.object [])) ks x with
    | error e => simp [hc] at h
    | ok c =>
      simp [hc] at h
      subst h
      simp [JSON.field, lookup_setField_ne _ _ _ _ hne]
  | null | bool _ | number _ | string _ =>
    simp only [JSON.set] at h
    cases hc : JSON.set (.object []) ks x with
    | error e => simp [hc] at h
    | ok c =>
      simp [hc] at h
      subst h
      simp [JSON.field, List.lookup, hb]

theorem JSON.set_object (fields : List (String × JSON)) (k : String) (ks : List String)
    (x : JSON) :
    (JSON.object fields).set (k :: ks) x =
      match JSON.set ((fields.lookup k).getD (.object [])) ks x with
      | .ok c => .ok (.object (setField k c fields))
      | .error e => .error e := by
  rw [JSON.set]

/-- On a value that is neither an object nor an array, a set starts from a
fresh object. -/
theorem JSON.set_scalar (d : JSON) (k : String) (ks : List String) (x : JSON)
    (hobj : ∀ fields, d ≠ .object fields) (harr : ∀ items, d ≠ .array items) :
    d.set (k :: ks) x =
      match JSON.set (.object []) ks x with
      | .ok c => .ok (.object [(k, c)])
      | .error e => .error e := by
  cases d with
  | array items => exact absurd rfl (harr items)
  | object fields => exact absurd rfl (hobj fields)
  | null | bool _ | number _ | string _ =>
    rw [JSON.set]
    · exact fun items hd => harr items hd
    · exact fun fields hd => hobj fields hd

theorem JSON.field_scalar (d : JSON) (k : String) (hobj : ∀ fields, d ≠ .object fields) :
    d.field k = none := by
  cases d with
  | object fields => exact absurd rfl (hobj fields)
  | null | bool _ | number _ | string _ | array _ => rfl

/-- A successful set at `k1.k2` leaves every other field under `k1` as it was. -/
theorem JSON.get_set_nested_ne (k1 k2 : String) (x : JSON) (k' : String) (hne : k' ≠ k2)
    (d d' : JSON) (h : d.set [k1, k2] x = .ok d') :
    d'.get [k1, k'] = d.get [k1, k'] := by
  by_cases hobj : ∃ fields, d = .object fields
  · obtain ⟨fields, rfl⟩ := hobj
    rw [JSON.set_object] at h
    cases hc : JSON.set ((fields.lookup k1).getD (.object [])) [k2] x with
    | error e => simp [hc] at h
    | ok c =>
      simp only [hc] at h
      injection h with h
      subst h
      have hf := JSON.field_set_ne k2 [] x k' hne _ _ hc
      cases hl : fields.lookup k1 with
      | none =>
        rw [hl] at hf
        simp [JSON.get, JSON.field, lookup_setField_self, hl] at hf ⊢
        simp [hf]
      | some ch =>
        rw [hl] at hf
        simp [JSON.get, JSON.field, lookup_setField_self, hl] at hf ⊢
        simp [hf]
  · have hobj' : ∀ fields, d ≠ .object fields := fun fields hd => hobj ⟨fields, hd⟩
    by_cases harr : ∃ items, d = .array items
    · obtain ⟨items, rfl⟩ := harr
      simp [JSON.set] at h
    · have harr' : ∀ items, d ≠ .array items := fun items hd => harr ⟨items, hd⟩
      rw [JSON.set_scalar d k1 [k2] x hobj' harr'] at h
      cases hc : JSON.set (.object []) [k2] x with
      | error e => simp [hc] at h
      | ok c =>
        simp only [hc] at h
        injection h with h
        subst h
        have hf := JSON.field_set_ne k2 [] x k' hne _ _ hc
        have h0 : (JSON.object []).field k' = none := rfl
        rw [h0] at hf
        simp [JSON.get, JSON.field_scalar d k1 hobj', JSON.field, List.lookup, hf]
        simp [JSON.field] at hf
        simp [hf]

theorem JSON.get_singleton (j : JSON) (k : String) : j.get [k] = j.field k := by
  simp only [JSON.get]
  cases j.field k <;> rfl

/-! ## PersistedState store -/

theorem getConfigFilePath_congr (w w' : World) (h1 : w'.userConfigDir = w.userConfigDir)
    (h2 : w'.mkdirAll = w.mkdirAll) : getConfigFilePath w' = getConfigFilePath w := by
  unfold getConfigFilePath
  rw [h1, h2]

/-- A write changes at most the file written, and no path resolution; a
successful one leaves the data written in the file. -/
theorem writeFile_spec (w : World) (path : String) (data : FileData) :
    getConfigFilePath (writeFile w path data).1 = getConfigFilePath w
      ∧ (∀ q, q ≠ path → (writeFile w path data).1.files q = w.files q)
      ∧ ((writeFile w path data).2 = none →
          (w.files path = .absent → (writeFile w path data).1.files path = .file data true)
            ∧ (∀ old r, w.files path = .file old r →
                (writeFile w path data).1.files path = .file data r)) := by
  unfold writeFile
  cases hwe : w.writeFault path with
  | some fault =>
    cases fault with
    | atOpen err => simp
    | afterOpen err left =>
      refine ⟨getConfigFilePath_congr _ _ rfl rfl, ?_, by simp⟩
      intro q hq
      simp [hq]
  | none =>
    refine ⟨getConfigFilePath_congr _ _ rfl rfl, ?_, ?_⟩
    · intro q hq
      simp [hq]
    · intro _
      constructor
      · intro ha
        simp [ha]
      · intro old r hf
        simp [hf]

/-- What `saveConfig` does once the path is resolved. -/
theorem saveConfig_resolved (w : World) (config : Config) (path : String)
    (hp : getConfigFilePath w = (path, none)) :
    saveConfig w config =
      match sjsonSet
        (match w.files path with
          | .absent => FileData.json (.object [])
          | .file _ false => FileData.empty
          | .file data true => data) configValuePath config.Value with
      | .error err => (w, some err)
      | .ok newData => writeFile w path newData := by
  unfold saveConfig
  rw [hp]
  simp only [stat, readFile]
  cases hf : w.files path with
  | absent => rfl
  | file data r => cases r <;> rfl

/-- C4: when the path resolves and no file is there, `loadConfig` returns the
Config with value 0.0 and no error. -/
theorem loadConfig_absent (p : Platform) (w : World) (path : String)
    (hp : getConfigFilePath w = (path, none)) (ha : w.files path = .absent) :
    loadConfig p w = (some ⟨F64.zero⟩, none) := by
  simp [loadConfig, hp, readFile, ha]

/-- Witness of C4: the sample world without a state file. -/
theorem loadConfig_absent_witness :
    loadConfig (platformServing 200 "5.00") (worldWith .absent) = (some ⟨F64.zero⟩, none) :=
  loadConfig_absent (platformServing 200 "5.00") (worldWith .absent) statePath
    (by decide) (by rfl)

/-- C5, as amended: for an existing state file, `loadConfig` fails and returns
no Config when the content has no value at `config.value`; and when the file
can be read and has a number at `config.value`, it succeeds with exactly that
number (when it can be read and has no value there, the error is the
missing-key error). -/
theorem loadConfig_existing (p : Platform) (w : World) (path : String) (data : FileData)
    (readable : Bool) (hp : getConfigFilePath w = (path, none))
    (hf : w.files path = .file data readable) :
    (gjsonGet data configValuePath = none → ∃ err, loadConfig p w = (none, some err))
      ∧ (gjsonGet data configValuePath = none → readable = true →
          loadConfig p w = (none, some "key 'config.value' not found in config file"))
      ∧ (∀ v, gjsonGet data configValuePath = some (.number v) → readable = true →
          loadConfig p w = (some ⟨v⟩, none)) := by
  cases readable with
  | false =>
    refine ⟨fun _ => ⟨_, by simp [loadConfig, hp, readFile, hf]; rfl⟩, ?_, ?_⟩
    · intro _ h
      exact absurd h (by decide)
    · intro _ _ h
      exact absurd h (by decide)
  | true =>
    refine ⟨fun hn => ⟨_, by simp [loadConfig, hp, readFile, hf, hn, Result.Exists]; rfl⟩, ?_, ?_⟩
    · intro hn _
      simp [loadConfig, hp, readFile, hf, hn, Result.Exists]
    · intro v hv _
      simp [loadConfig, hp, readFile, hf, hv, Result.Exists, Result.Float]

/-- Witness of C5: a readable state file with 5.5 at `config.value`. -/
theorem loadConfig_existing_witness :
    loadConfig (platformServing 200 "5.00") (worldWith (.file (.json (stateWith f550)) true))
      = (some ⟨f550⟩, none) :=
  (loadConfig_existing (platformServing 200 "5.00")
    (worldWith (.file (.json (stateWith f550)) true)) statePath (.json (stateWith f550)) true
    (by decide) (by rfl)).2.2 f550 (by rfl) rfl

/-- C5, counterexample: a state file that exists and has the number 5.5 at
`config.value`, but cannot be read: `loadConfig` fails with the read error. -/
theorem loadConfig_unreadable_fails :
    (worldWith (.file (.json (stateWith f550)) false)).files statePath
        = .file (.json (stateWith f550)) false
      ∧ gjsonGet (.json (stateWith f550)) configValuePath = some (.number f550)
      ∧ loadConfig (platformServing 200 "5.00") (worldWith (.file (.json (stateWith f550)) false))
        = (none, some "open /home/user/.config/gousdbrl/data.json: permission denied") :=
  ⟨by rfl, by rfl, by rfl⟩

/-- A successful `sjsonSet` leaves the top-level fields other than the first
key of the path, and the fields under it other than the second, as they were;
and the path then holds the number set. -/
theorem sjsonSet_spec (data newData : FileData) (k1 k2 : String) (v : F64)
    (h : sjsonSet data [k1, k2] v = .ok newData) :
    gjsonGet newData [k1, k2] = some (.number v)
      ∧ (∀ k, k ≠ k1 → gjsonGet newData [k] = gjsonGet data [k])
      ∧ (∀ k, k ≠ k2 → gjsonGet newData [k1, k] = gjsonGet data [k1, k]) := by
  cases data with
  | empty =>
    simp only [sjsonSet] at h
    cases hs : JSON.set (.object []) [k1, k2] (.number v) with
    | error e => simp [hs, Except.map] at h
    | ok d' =>
      simp [hs, Except.map] at h
      subst h
      refine ⟨JSON.get_set _ _ _ _ hs, ?_, ?_⟩
      · intro k hk
        simp only [gjsonGet, JSON.get_singleton]
        rw [JSON.field_set_ne k1 [k2] _ k hk _ _ hs]
        rfl
      · intro k hk
        simp only [gjsonGet]
        rw [JSON.get_set_nested_ne k1 k2 _ k hk _ _ hs]
        rfl
  | json d =>
    simp only [sjsonSet] at h
    cases hs : JSON.set d [k1, k2] (.number v) with
    | error e => simp [hs, Except.map] at h
    | ok d' =>
      simp [hs, Except.map] at h
      subst h
      refine ⟨JSON.get_set _ _ _ _ hs, ?_, ?_⟩
      · intro k hk
        simp only [gjsonGet, JSON.get_singleton]
        exact JSON.field_set_ne k1 [k2] _ k hk _ _ hs
      · intro k hk
        simp only [gjsonGet]
        exact JSON.get_set_nested_ne k1 k2 _ k hk _ _ hs

/-- C6, as amended: for every existing state document that can be read and
every Config, when `saveConfig` succeeds, the document at the state path has
every top-level field other than `config`, and every field under `config`
other than `value`, with the value it had before, and the number saved at
`config.value`; no other file changes. -/
theorem saveConfig_preserves_fields (w : World) (config : Config) (path : String)
    (data : FileData) (hp : getConfigFilePath w = (path, none))
    (hf : w.files path = .file data true)
    (hs : (saveConfig w config).2 = none) :
    ∃ data', (saveConfig w config).1.files path = .file data' true
      ∧ gjsonGet data' configValuePath = some (.number config.Value)
      ∧ (∀ k, k ≠ "config" → gjsonGet data' [k] = gjsonGet data [k])
      ∧ (∀ k, k ≠ "value" → gjsonGet data' ["config", k] = gjsonGet data ["config", k])
      ∧ (∀ q, q ≠ path → (saveConfig w config).1.files q = w.files q) := by
  rw [saveConfig_resolved w config path hp, hf] at hs ⊢
  cases hset : sjsonSet data configValuePath config.Value with
  | error err => simp [hset] at hs
  | ok newData =>
    simp only [hset] at hs ⊢
    obtain ⟨_, hother, hok⟩ := writeFile_spec w path newData
    obtain ⟨h0, h1, h2⟩ := sjsonSet_spec data newData "config" "value" config.Value hset
    exact ⟨newData, (hok hs).2 data true hf, h0, h1, h2, hother⟩

/-- Witness of C6: saving 5.0 over the readable sample document succeeds and
keeps the field `note` and the field `config.unit`. -/
theorem saveConfig_preserves_fields_witness :
    ∃ data', (saveConfig (worldWith (.file (.json richState) true)) ⟨f500⟩).1.files statePath
        = .file data' true
      ∧ gjsonGet data' configValuePath = some (.number f500)
      ∧ (∀ k, k ≠ "config" → gjsonGet data' [k] = gjsonGet (.json richState) [k])
      ∧ (∀ k, k ≠ "value" →
          gjsonGet data' ["config", k] = gjsonGet (.json richState) ["config", k])
      ∧ (∀ q, q ≠ statePath →
          (saveConfig (worldWith (.file (.json richState) true)) ⟨f500⟩).1.files q
            = (worldWith (.file (.json richState) true)).files q) :=
  saveConfig_preserves_fields (worldWith (.file (.json richState) true)) ⟨f500⟩ statePath
    (.json richState) (by decide) (by rfl) (by rfl)

/-- C6, counterexample: the state document exists with the fields `note` and
`config.unit` but cannot be read; `saveConfig` succeeds, and the document
written back has neither field.  And when the document can be read but the
write fails after the open (a full disk), the file is left empty, again
without the fields. -/
theorem saveConfig_unreadable_drops_fields :
    (worldWith (.file (.json richState) false)).files statePath
        = .file (.json richState) false
      ∧ gjsonGet (.json richState) ["note"] = some (.string "kept")
      ∧ gjsonGet (.json richState) ["config", "unit"] = some (.string "BRL")
      ∧ (saveConfig (worldWith (.file (.json richState) false)) ⟨f500⟩).2 = none
      ∧ (saveConfig (worldWith (.file (.json richState) false)) ⟨f500⟩).1.files statePath
          = .file (.json (stateWith f500)) false
      ∧ gjsonGet (.json (stateWith f500)) ["note"] = none
      ∧ gjsonGet (.json (stateWith f500)) ["config", "unit"] = none
      ∧ (saveConfig (worldFullDisk (.file (.json richState) true)) ⟨f500⟩).2
          = some "write: no space left on device"
      ∧ (saveConfig (worldFullDisk (.file (.json richState) true)) ⟨f500⟩).1.files statePath
          = .file .empty true
      ∧ gjsonGet .empty ["note"] = none :=
  ⟨by rfl, by rfl, by rfl, by rfl, by rfl, by rfl, by rfl, by rfl, by rfl, by rfl⟩

/-- C7, as amended: if `loadConfig` succeeds with Config `c` and `saveConfig`
with `c` then succeeds, `loadConfig` returns `c` again (the round trip, the
absent file with 0.0 included); and after any successful `saveConfig` with
`c`, `loadConfig` returns `c`, provided the state file was not one that exists
but cannot be read. -/
theorem loadConfig_after_saveConfig (p : Platform) (w : World) (c : Config) :
    (loadConfig p w = (some c, none) → (saveConfig w c).2 = none →
        loadConfig p (saveConfig w c).1 = (some c, none))
      ∧ ((saveConfig w c).2 = none → ¬ w.stateUnreadable →
          loadConfig p (saveConfig w c).1 = (some c, none)) := by
  have hB : (saveConfig w c).2 = none → ¬ w.stateUnreadable →
      loadConfig p (saveConfig w c).1 = (some c, none) := by
    intro hs hu
    rcases hg : getConfigFilePath w with ⟨path, _ | e⟩
    · have hread : ∀ data, w.files path ≠ .file data false :=
        fun data hfalse => hu ⟨path, data, hg, hfalse⟩
      rw [saveConfig_resolved w c path hg] at hs ⊢
      generalize hd : (match w.files path with
            | .absent => FileData.json (.object [])
            | .file _ false => FileData.empty
            | .file data true => data) = data at hs ⊢
      cases hset : sjsonSet data configValuePath c.Value with
      | error err => simp [hset] at hs
      | ok newData =>
        simp only [hset] at hs ⊢
        obtain ⟨hpath, _, hok⟩ := writeFile_spec w path newData
        obtain ⟨hget, _, _⟩ := sjsonSet_spec data newData "config" "value" c.Value hset
        have hfile : (writeFile w path newData).1.files path = .file newData true := by
          cases hf : w.files path with
          | absent => exact (hok hs).1 hf
          | file old r =>
            cases r with
            | false => exact absurd hf (hread old)
            | true => exact (hok hs).2 old true hf
        have hget' : gjsonGet newData configValuePath = some (.number c.Value) := hget
        simp [loadConfig, hpath, hg, readFile, hfile, hget', Result.Exists, Result.Float]
    · simp [saveConfig, hg] at hs
  refine ⟨?_, hB⟩
  intro hl hs
  have hu : ¬ w.stateUnreadable := by
    rintro ⟨path, data, hg, hfalse⟩
    simp [loadConfig, hg, readFile, hfalse] at hl
  exact hB hs hu

/-- Witness of C7: with 5.5 stored beside other fields, load gives 5.5, and
saving that and loading again gives 5.5; and saving 5.0 over it and loading
gives 5.0. -/
theorem loadConfig_after_saveConfig_witness :
    loadConfig (platformServing 200 "5.00")
        (saveConfig (worldWith (.file (.json richState) true)) ⟨f550⟩).1
        = (some ⟨f550⟩, none)
      ∧ loadConfig (platformServing 200 "5.00")
          (saveConfig (worldWith (.file (.json richState) true)) ⟨f500⟩).1
        = (some ⟨f500⟩, none) :=
  ⟨(loadConfig_after_saveConfig (platformServing 200 "5.00")
      (worldWith (.file (.json richState) true)) ⟨f550⟩).1 (by rfl) (by rfl),
    (loadConfig_after_saveConfig (platformServing 200 "5.00")
      (worldWith (.file (.json richState) true)) ⟨f500⟩).2 (by rfl)
      (by
        rintro ⟨path, data, hg, hfalse⟩
        have hpath : path = statePath := by
          have h1 : getConfigFilePath (worldWith (.file (.json richState) true))
              = (statePath, none) := by decide
          rw [h1] at hg
          exact (congrArg Prod.fst hg).symm
        subst hpath
        have h2 : (worldWith (.file (.json richState) true)).files statePath
            = .file (.json richState) true := by rfl
        rw [h2] at hfalse
        cases hfalse)⟩

/-- C7, counterexample: the state file exists but cannot be read; `saveConfig`
with value 5.0 succeeds, and `loadConfig` afterwards fails.  And with 5.5
stored in a readable file, `loadConfig` succeeds with 5.5, `saveConfig` with
it fails after the open of the write (a full disk), and `loadConfig` then
fails on the emptied file. -/
theorem loadConfig_after_saveConfig_unreadable :
    (saveConfig (worldWith (.file (.json richState) false)) ⟨f500⟩).2 = none
      ∧ loadConfig (platformServing 200 "5.00")
          (saveConfig (worldWith (.file (.json richState) false)) ⟨f500⟩).1
        = (none, some "open /home/user/.config/gousdbrl/data.json: permission denied")
      ∧ loadConfig (platformServing 200 "5.00") (worldFullDisk (.file (.json richState) true))
        = (some ⟨f550⟩, none)
      ∧ (saveConfig (worldFullDisk (.file (.json richState) true)) ⟨f550⟩).2
        = some "write: no space left on device"
      ∧ loadConfig (platformServing 200 "5.00")
          (saveConfig (worldFullDisk (.file (.json richState) true)) ⟨f550⟩).1
        = (none, some "key 'config.value' not found in config file") :=
  ⟨by rfl, by rfl, by rfl, by rfl, by rfl⟩

/-- A successful `saveConfig` leaves a file at the state path whose document
has the number saved at `config.value`. -/
theorem saveConfig_persists (w : World) (c : Config) (hs : (saveConfig w c).2 = none) :
    ∃ path data readable, getConfigFilePath w = (path, none)
      ∧ (saveConfig w c).1.files path = .file data readable
      ∧ gjsonGet data configValuePath = some (.number c.Value) := by
  rcases hg : getConfigFilePath w with ⟨path, _ | e⟩
  · rw [saveConfig_resolved w c path hg] at hs ⊢
    generalize (match w.files path with
          | .absent => FileData.json (.object [])
          | .file _ false => FileData.empty
          | .file data true => data) = data at hs ⊢
    cases hset : sjsonSet data configValuePath c.Value with
    | error err => simp [hset] at hs
    | ok newData =>
      simp only [hset] at hs ⊢
      obtain ⟨_, _, hok⟩ := writeFile_spec w path newData
      obtain ⟨hget, _, _⟩ := sjsonSet_spec data newData "config" "value" c.Value hset
      cases hf : w.files path with
      | absent => exact ⟨path, newData, true, rfl, (hok hs).1 hf, hget⟩
      | file old r => exact ⟨path, newData, r, rfl, (hok hs).2 old r hf, hget⟩
  · simp [saveConfig, hg] at hs

/-! ## RateSource -/

theorem getNodesText_nil : Text [] = "" := by
  simp [Text, getNodesText]

/-- C10, as amended: for a 200 response whose body parses, the rate text
delivered is the combined text of the nodes the selector finds, as it stands in
the page (not trimmed), and the not-found error is delivered exactly when that
text is empty, which includes the case that no node matches. -/
theorem fetchExchangeRate_delivers (p : Platform) (url : String) (resp : Response)
    (doc : Document) (hget : p.httpGet url = .ok resp) (hstatus : resp.StatusCode = 200)
    (hdoc : p.newDocumentFromReader resp.Body = .ok doc) :
    (∀ rate, fetchExchangeRate p url = .result rate ↔
        (rate = Text (doc.Find rateSelector) ∧ rate ≠ ""))
      ∧ (fetchExchangeRate p url = .err "exchange rate not found in HTML" ↔
          Text (doc.Find rateSelector) = "")
      ∧ (doc.Find rateSelector = [] →
          fetchExchangeRate p url = .err "exchange rate not found in HTML") := by
  have hfe : fetchExchangeRate p url =
      if Text (doc.Find rateSelector) = "" then .err "exchange rate not found in HTML"
      else .result (Text (doc.Find rateSelector)) := by
    simp [fetchExchangeRate, hget, hstatus, hdoc]
  rw [hfe]
  by_cases ht : Text (doc.Find rateSelector) = ""
  · refine ⟨?_, by simp [ht], fun _ => by simp [ht]⟩
    intro rate
    simp only [ht, if_true]
    constructor
    · intro h
      cases h
    · rintro ⟨h1, h2⟩
      exact absurd h1 h2
  · refine ⟨?_, by simp [ht], ?_⟩
    · intro rate
      simp only [ht, if_false]
      constructor
      · intro h
        injection h with h
        subst h
        exact ⟨rfl, ht⟩
      · rintro ⟨h1, _⟩
        rw [h1]
    · intro hnil
      rw [hnil, getNodesText_nil] at ht
      exact absurd rfl ht

/-- Witness of C10: the sample page with the text 5.00. -/
theorem fetchExchangeRate_delivers_witness :
    fetchExchangeRate (platformServing 200 "5.00") wiseCurrencyPage = .result "5.00" :=
  ((fetchExchangeRate_delivers (platformServing 200 "5.00") wiseCurrencyPage
    ⟨200, pageWith "5.00"⟩ (documentWith "5.00") rfl rfl rfl).1 "5.00").mpr
    ⟨by rfl, by decide⟩

/-- C10, counterexample: a 200 page whose matching node has the text 5.21
between blanks delivers the text with the blanks; and a 200 page whose
matching node is empty delivers the not-found error although a node matches. -/
theorem fetchExchangeRate_not_trimmed :
    (documentWith " 5.21 ").Find rateSelector
        = [.element "span" [("class", "text-success")] [.text " 5.21 "]]
      ∧ fetchExchangeRate (platformServing 200 " 5.21 ") wiseCurrencyPage = .result " 5.21 "
      ∧ " 5.21 " ≠ "5.21"
      ∧ emptyRateDocument.Find rateSelector = [emptyRateNode]
      ∧ fetchExchangeRate (platformWith 200 (pageWith "") emptyRateDocument) wiseCurrencyPage
          = .err "exchange rate not found in HTML" :=
  ⟨by rfl, by rfl, by decide, by rfl, by rfl⟩

/-! ## Orchestrator -/

/-- C2: in a run where the fetch delivers a rate text that parses to `v` and
that ends successfully (so the save succeeded), the state file afterwards has
the number `v` at `config.value`, whatever was stored before. -/
theorem main_persists_rate (p : Platform) (w : World) (r : String) (v : F64)
    (hfetch : fetchExchangeRate p wiseCurrencyPage = .result r)
    (hparse : p.parseFloat r = (v, none))
    (hok : (main p w).status = .success) :
    ∃ path data readable, getConfigFilePath w = (path, none)
      ∧ (main p w).world.files path = .file data readable
      ∧ gjsonGet data configValuePath = some (.number v)
      ∧ Result.Float p (gjsonGet data configValuePath) = v := by
  have hcmp := handleRateComparison_ok p r
  unfold main at hok ⊢
  rw [hfetch] at hok ⊢
  rcases hl : loadConfig p w with ⟨_ | config, _ | e⟩
  · simp [hl] at hok
  · simp [hl] at hok
  · simp only [hl, hcmp config.Value v hparse, hparse] at hok ⊢
    rcases hsv : (saveConfig w ⟨v⟩).2 with _ | e
    · obtain ⟨path, data, readable, h1, h2, h3⟩ := saveConfig_persists w ⟨v⟩ hsv
      have hrun : saveConfig w ⟨v⟩ = ((saveConfig w ⟨v⟩).1, none) := Prod.ext rfl hsv
      rw [hrun]
      exact ⟨path, data, readable, h1, h2, h3, by rw [h3]; rfl⟩
    · have hrun : saveConfig w ⟨v⟩ = ((saveConfig w ⟨v⟩).1, some e) := Prod.ext rfl hsv
      rw [hrun] at hok
      simp at hok
  · simp [hl] at hok

/-- Witness of C2: with 5.5 stored and the page showing 5.20, the run ends
successfully and the state file has the float64 nearest to 5.2. -/
theorem main_persists_rate_witness :
    ∃ path data readable,
      getConfigFilePath (worldWith (.file (.json (stateWith f550)) true)) = (path, none)
      ∧ (main (platformServing 200 "5.20")
            (worldWith (.file (.json (stateWith f550)) true))).world.files path
          = .file data readable
      ∧ gjsonGet data configValuePath = some (.number f520)
      ∧ Result.Float (platformServing 200 "5.20") (gjsonGet data configValuePath) = f520 :=
  main_persists_rate (platformServing 200 "5.20")
    (worldWith (.file (.json (stateWith f550)) true)) "5.20" f520 (by rfl) (by decide) (by rfl)

/-- C3: in a run where the fetch delivers an error, or delivers a rate text
that does not parse, the run ends fatally in the world it started in: nothing
was written.  When the state had loaded, the run is the banner, one red line
and the fatal exit, with no save in between. -/
theorem main_failure_keeps_state (p : Platform) (w : World)
    (h : (∃ e, fetchExchangeRate p wiseCurrencyPage = .err e)
      ∨ (∃ r, fetchExchangeRate p wiseCurrencyPage = .result r ∧ (p.parseFloat r).2 ≠ none)) :
    (main p w).world = w
      ∧ (∃ msg, (main p w).status = .fatal msg)
      ∧ (∀ config e, loadConfig p w = (some config, none) →
          fetchExchangeRate p wiseCurrencyPage = .err e →
          main p w = ⟨w, [banner p, .red ("Error: " ++ e ++ "\n")],
            .fatal ("Error: " ++ e ++ "\n")⟩)
      ∧ (∀ config r err, loadConfig p w = (some config, none) →
          fetchExchangeRate p wiseCurrencyPage = .result r →
          (p.parseFloat r).2 = some err →
          main p w = ⟨w, [banner p,
              .red ("Error handling rate comparison: " ++ ("error parsing rate: " ++ err) ++ "\n")],
            .fatal ("Error handling rate comparison: " ++ ("error parsing rate: " ++ err) ++ "\n")⟩) := by
  have herr : ∀ r err, (p.parseFloat r).2 = some err → ∀ o,
      handleRateComparison p r o = ("", some ("error parsing rate: " ++ err)) := by
    intro r err he o
    unfold handleRateComparison
    rcases hp : p.parseFloat r with ⟨x, _ | e'⟩
    · rw [hp] at he
      cases he
    · rw [hp] at he
      cases he
      rfl
  refine ⟨?_, ?_, ?_, ?_⟩
  · rcases h with ⟨e, he⟩ | ⟨r, hr, hp⟩
    · unfold main
      rw [he]
      rcases hl : loadConfig p w with ⟨_ | config, _ | e'⟩ <;> rfl
    · obtain ⟨err, herr'⟩ := Option.ne_none_iff_exists'.mp hp
      unfold main
      rw [hr]
      rcases hl : loadConfig p w with ⟨_ | config, _ | e'⟩
      · rfl
      · rfl
      · simp only [herr r err herr' config.Value]
      · rfl
  · rcases h with ⟨e, he⟩ | ⟨r, hr, hp⟩
    · unfold main
      rw [he]
      rcases hl : loadConfig p w with ⟨_ | config, _ | e'⟩ <;> exact ⟨_, rfl⟩
    · obtain ⟨err, herr'⟩ := Option.ne_none_iff_exists'.mp hp
      unfold main
      rw [hr]
      rcases hl : loadConfig p w with ⟨_ | config, _ | e'⟩
      · exact ⟨_, rfl⟩
      · exact ⟨_, rfl⟩
      · simp only [herr r err herr' config.Value]
        exact ⟨_, rfl⟩
      · exact ⟨_, rfl⟩
  · intro config e hl he
    unfold main
    rw [he, hl]
    rfl
  · intro config r err hl hr hp
    unfold main
    rw [hr, hl]
    simp only [herr r err hp config.Value]
    rfl

/-- Witness of C3: the server answers 500; the run is fatal with the status
in the message and the world is the one it started in. -/
theorem main_failure_keeps_state_witness :
    (main (platformServing 500 "5.20") (worldWith (.file (.json (stateWith f550)) true))).world
        = worldWith (.file (.json (stateWith f550)) true)
      ∧ (main (platformServing 500 "5.20")
          (worldWith (.file (.json (stateWith f550)) true))).status
        = .fatal "Error: unexpected status code: 500\n" :=
  ⟨(main_failure_keeps_state (platformServing 500 "5.20")
      (worldWith (.file (.json (stateWith f550)) true)) (Or.inl ⟨_, rfl⟩)).1, by rfl⟩

/-! ## The scenarios of the specification -/

/-- Scenario A: no state file and the page showing 5.00: the run prints the
Up line and stores 5.0. -/
theorem scenario_first_run :
    (main (platformServing 200 "5.00") (worldWith .absent)).stdout
        = [banner (platformServing 200 "5.00"), .line "▲ 5.00"]
      ∧ (main (platformServing 200 "5.00") (worldWith .absent)).status = .success
      ∧ (main (platformServing 200 "5.00") (worldWith .absent)).world.files statePath
        = .file (.json (stateWith f500)) true :=
  ⟨by rfl, by rfl, by rfl⟩

/-- Scenario B: 5.5 stored and the page showing 5.20: the run prints the Down
line and stores the float64 nearest to 5.2. -/
theorem scenario_rate_fell :
    (main (platformServing 200 "5.20")
        (worldWith (.file (.json (stateWith f550)) true))).stdout
        = [banner (platformServing 200 "5.20"), .line "▼ 5.20"]
      ∧ (main (platformServing 200 "5.20")
          (worldWith (.file (.json (stateWith f550)) true))).world.files statePath
        = .file (.json (stateWith f520)) true :=
  ⟨by rfl, by rfl⟩

/-- Scenario C: the stored value and the page agree: the run prints the
Unchanged line and the state document is the same. -/
theorem scenario_rate_same :
    (main (platformServing 200 "5.20")
        (worldWith (.file (.json (stateWith f520)) true))).stdout
        = [banner (platformServing 200 "5.20"), .line "▶ 5.20"]
      ∧ (main (platformServing 200 "5.20")
          (worldWith (.file (.json (stateWith f520)) true))).world.files statePath
        = .file (.json (stateWith f520)) true :=
  ⟨by rfl, by rfl⟩

/-- Scenario E: the page has no text in the element: the run is fatal with the
not-found error and the state file is as before. -/
theorem scenario_rate_missing :
    (main (platformWith 200 (pageWith "") emptyRateDocument)
        (worldWith (.file (.json (stateWith f550)) true))).status
        = .fatal "Error: exchange rate not found in HTML\n"
      ∧ (main (platformWith 200 (pageWith "") emptyRateDocument)
          (worldWith (.file (.json (stateWith f550)) true))).world.files statePath
        = .file (.json (stateWith f550)) true :=
  ⟨by rfl, by rfl⟩

/-- A stored text NaN loads as the float64 NaN, and the run then prints the
Unchanged line for the rate 5.00. -/
theorem scenario_stored_nan :
    loadConfig (platformServing 200 "5.00")
        (worldWith (.file (.json (.object [("config", .object [("value", .string "NaN")])])) true))
        = (some ⟨quietNaN⟩, none)
      ∧ (main (platformServing 200 "5.00")
          (worldWith (.file (.json (.object [("config", .object [("value", .string "NaN")])]))
            true))).stdout
        = [banner (platformServing 200 "5.00"), .line "▶ 5.00"] :=
  ⟨by rfl, by rfl⟩

end Gousdbrl
